import Mathlib

/-!
Verification of the POSIX filesystem shim layer (`src/shims/fs.rs`).

The shim translates guest file-descriptor syscalls into host filesystem
operations.  We embed the shim shallowly:

* The fd table (`FileHandler`, a `BTreeMap<i32, FileHandle>` in the source)
  becomes a list of key/handle pairs kept in strictly ascending key order,
  which is exactly the iteration order the allocation algorithm relies on.
* Guest memory becomes a `Memory` record: a byte map, a validity predicate
  used by `check_ptr_access`, and a map from pointers to the C strings
  readable there (`read_os_str_from_c_str`; a null or invalid pointer
  yields a memory-fault interpreter error).
* Host filesystem calls are oracles: each syscall model takes the host's
  response as an argument and logs the call it would make in `MState.hostOps`,
  so "the host was not touched" is a provable statement.
* `InterpResult` becomes `Except InterpErr`: `throw_unsup_format!` and
  memory faults abort the whole evaluation, while errno-style failures are
  ordinary `-1` returns with the error recorded in `MState.lastError`.
* Machine integers: fds are `i32` and modelled as `Int`; flag words are bit
  patterns modelled as `Nat` (the source only applies bitwise operations to
  them, which agree with the two's-complement representation).
-/

namespace MiriFs

/-- Errno values recorded in the guest-visible "last error" sink.
Named errnos are the ones the shim sets itself; `hostErr` stands for an
errno propagated from a failing host call. -/
inductive Errno where
  | EBADF
  | EFAULT
  | EINVAL
  | hostErr (code : Nat)
deriving DecidableEq, Repr

/-- Interpreter-fatal errors: `unsupported` models `throw_unsup_format!`,
`memFault` models a failed guest-memory access (`check_ptr_access` or a
C-string read through a null/dangling pointer). -/
inductive InterpErr where
  | unsupported
  | memFault
deriving DecidableEq, Repr

/-- Target platform, used by `check_platform`. -/
inductive Platform where
  | linux
  | macos
  | otherOS
deriving DecidableEq, Repr

/-- Seek origin, mirroring `std::io::SeekFrom`. -/
inductive SeekFrom where
  | start (n : Nat)
  | current (i : Int)
  | fromEnd (i : Int)
deriving DecidableEq, Repr

/-- A host filesystem call made by the shim.  Appended to `MState.hostOps`
at the point where the source performs the call. -/
inductive HostOp where
  | openOp (path : List Nat) (flags : Nat)
  | readOp (fileId : Nat) (count : Nat)
  | writeOp (fileId : Nat) (bytes : List Nat)
  | seekOp (fileId : Nat) (pos : SeekFrom)
  | syncOp (fileId : Nat)
  | cloneOp (fileId : Nat)
  | renameOp (oldPath newPath : List Nat)
  | symlinkOp (target linkpath : List Nat)
  | unlinkOp (path : List Nat)
  | statOp (path : List Nat) (follow : Bool)
  | fstatOp (fileId : Nat)
deriving DecidableEq, Repr

/-- Numeric values of the target platform's symbolic constants, resolved by
the `eval_libc` collaborator in the source. -/
structure Consts where
  O_RDONLY : Nat
  O_WRONLY : Nat
  O_RDWR : Nat
  O_APPEND : Nat
  O_TRUNC : Nat
  O_CREAT : Nat
  O_CLOEXEC : Nat
  F_GETFD : Int
  F_DUPFD : Int
  F_DUPFD_CLOEXEC : Int
  FD_CLOEXEC : Int
  SEEK_SET : Int
  SEEK_CUR : Int
  SEEK_END : Int
  AT_FDCWD : Int
  AT_EMPTY_PATH : Nat
  AT_SYMLINK_NOFOLLOW : Nat
  STATX_TYPE : Nat
  STATX_SIZE : Nat
  STATX_ATIME : Nat
  STATX_BTIME : Nat
  STATX_MTIME : Nat
  S_IFREG : Nat
  S_IFDIR : Nat
  S_IFLNK : Nat
deriving DecidableEq, Repr

/-- The constants of a Linux x86-64 target (the values `eval_libc` yields
there), used to instantiate witnesses. -/
def linuxConsts : Consts where
  O_RDONLY := 0
  O_WRONLY := 1
  O_RDWR := 2
  O_APPEND := 1024
  O_TRUNC := 512
  O_CREAT := 64
  O_CLOEXEC := 524288
  F_GETFD := 1
  F_DUPFD := 0
  F_DUPFD_CLOEXEC := 1030
  FD_CLOEXEC := 1
  SEEK_SET := 0
  SEEK_CUR := 1
  SEEK_END := 2
  AT_FDCWD := -100
  AT_EMPTY_PATH := 4096
  AT_SYMLINK_NOFOLLOW := 256
  STATX_TYPE := 1
  STATX_SIZE := 512
  STATX_ATIME := 32
  STATX_BTIME := 2048
  STATX_MTIME := 64
  S_IFREG := 32768
  S_IFDIR := 16384
  S_IFLNK := 40960

/-- A `FileHandle`: the host file resource (identified by `fileId`) plus the
`writable` flag.  -/
structure FileHandle where
  fileId : Nat
  writable : Bool
deriving DecidableEq, Repr

/-- The fd table.  The source stores a `BTreeMap<i32, FileHandle>`; we store
its entries as a list in strictly ascending key order (the map's iteration
order).  All reachable tables satisfy `goodTable` below. -/
structure FileHandler where
  handles : List (Int × FileHandle)
deriving DecidableEq, Repr

/-- fd numbers 0, 1, and 2 are reserved for stdin, stdout, and stderr. -/
def MIN_NORMAL_FILE_FD : Int := 3

/-- `BTreeMap::get`: the handle stored at `fd`, if any. -/
def lookupFd (fh : FileHandler) (fd : Int) : Option FileHandle :=
  (fh.handles.find? (fun p => p.1 == fd)).map Prod.snd

/-- `BTreeMap::contains_key`. -/
def containsFd (fh : FileHandler) (fd : Int) : Bool :=
  (lookupFd fh fd).isSome

/-- `BTreeMap::remove` (the list after removal; unique keys make filtering
equivalent to removing the one entry). -/
def removeFdList (l : List (Int × FileHandle)) (fd : Int) : List (Int × FileHandle) :=
  l.filter (fun p => p.1 != fd)

/-- `handles.range(counter..).zip(counter..).find_map(...)`: walk the keys at
or above `counter` in ascending order alongside the counter; the first key
that differs from the counter reveals the gap, which is returned. -/
def findGap : List Int → Int → Option Int
  | [], _ => none
  | k :: ks, counter =>
    if k ≠ counter then some counter else findGap ks (counter + 1)

/-- Sorted insertion of a fresh key, matching `BTreeMap::insert` on a key
that is not yet present (`unwrap_none` in the source asserts freshness). -/
def insertSorted (fd : Int) (h : FileHandle) : List (Int × FileHandle) → List (Int × FileHandle)
  | [] => [(fd, h)]
  | p :: ps => if fd < p.1 then (fd, h) :: p :: ps else p :: insertSorted fd h ps

/-- The keys of the table at or above the floor, in ascending order
(`handles.range(min_fd..)`). -/
def rangeKeysOf (fh : FileHandler) (minfd : Int) : List Int :=
  (fh.handles.filter (fun p => decide (minfd ≤ p.1))).map Prod.fst

/-- The fallback fd when no gap was found: one plus the maximum key of the
whole map (`handles.last_entry()`), or the floor itself when the map is
empty. -/
def fallbackFd (fh : FileHandler) (minfd : Int) : Int :=
  match fh.handles.getLast? with
  | some p => p.1 + 1
  | none => minfd

/-- The fd `insert_fd_with_min_fd` allocates: clamp the floor to
`max(min_fd, MIN_NORMAL_FILE_FD)`, look for the first gap among the keys at
or above the floor, and otherwise use the fallback. -/
def allocNewFd (fh : FileHandler) (min_fd : Int) : Int :=
  (findGap (rangeKeysOf fh (max min_fd MIN_NORMAL_FILE_FD)) (max min_fd MIN_NORMAL_FILE_FD)).getD
    (fallbackFd fh (max min_fd MIN_NORMAL_FILE_FD))

/-- `FileHandler::insert_fd_with_min_fd`: allocate a new fd and insert the
handle there.  Returns the new table and the allocated fd. -/
def insert_fd_with_min_fd (fh : FileHandler) (file_handle : FileHandle) (min_fd : Int) :
    FileHandler × Int :=
  let new_fd := allocNewFd fh min_fd
  (⟨insertSorted new_fd file_handle fh.handles⟩, new_fd)

/-- `FileHandler::insert_fd`. -/
def insert_fd (fh : FileHandler) (file_handle : FileHandle) : FileHandler × Int :=
  insert_fd_with_min_fd fh file_handle 0

/-- Guest memory, abstracting the interpreter's memory collaborator:
per-address bytes, per-address validity, and the C strings readable at a
given pointer (`none` when the pointer does not point to a readable
null-terminated string). -/
structure Memory where
  bytes : Nat → Nat
  valid : Nat → Bool
  cstrs : Nat → Option (List Nat)

/-- `memory.check_ptr_access(buf, count, align 1)`: the whole range
`[buf, buf+count)` must be valid guest memory. -/
def checkPtrAccess (m : Memory) (buf count : Nat) : Bool :=
  (List.range count).all (fun i => m.valid (buf + i))

/-- `memory.write_bytes(buf, bs)`. -/
def writeBytes (m : Memory) (buf : Nat) (bs : List Nat) : Memory :=
  { m with
    bytes := fun a =>
      if buf ≤ a ∧ a < buf + bs.length then bs.getD (a - buf) 0 else m.bytes a }

/-- `memory.read_bytes(buf, count)`. -/
def readBytes (m : Memory) (buf count : Nat) : List Nat :=
  (List.range count).map (fun i => m.bytes (buf + i))

/-- `read_os_str_from_c_str`: reading through a null or otherwise invalid
pointer is a memory-fault interpreter error. -/
def readCStr (m : Memory) (ptr : Nat) : Except InterpErr (List Nat) :=
  if ptr = 0 then .error .memFault
  else
    match m.cstrs ptr with
    | some s => .ok s
    | none => .error .memFault

/-- The machine state visible to the shim: the fd table, guest memory, the
errno sink, and the log of host filesystem calls performed so far. -/
structure MState where
  fh : FileHandler
  mem : Memory
  lastError : Option Errno
  hostOps : List HostOp

/-- `set_last_error`. -/
def set_last_error (st : MState) (e : Errno) : MState :=
  { st with lastError := some e }

/-- `try_unwrap_io_result`: a host success is returned as is; a host error
is recorded in the errno sink and surfaced as `-1`. -/
def try_unwrap_io_result (st : MState) : Except Errno Int → MState × Int
  | .ok v => (st, v)
  | .error e => (set_last_error st e, -1)

/-- `handle_not_found`: record `EBADF` and return `-1` (widened to the
caller's return type; all returns are `Int` here). -/
def handle_not_found (st : MState) : MState × Int :=
  (set_last_error st Errno.EBADF, -1)

/-- `check_no_isolation`: in isolation mode every shim entry point fails as
unsupported before anything else. -/
def check_no_isolation (iso : Bool) : Except InterpErr Unit :=
  if iso then .error .unsupported else .ok ()

/-- `check_platform`. -/
def check_platform (current target : Platform) : Except InterpErr Unit :=
  if current = target then .ok () else .error .unsupported

/-- The mirror mask `open` rebuilds from `flags` out of the matched access
mode and the recognized bits `O_APPEND`, `O_TRUNC`, `O_CREAT`, `O_CLOEXEC`
(the source builds it incrementally while setting the host open options;
the resulting mask does not depend on which access mode matched). -/
def openMirror (c : Consts) (flag : Nat) : Nat :=
  let accessMode := flag &&& 3
  let m1 := if flag &&& c.O_APPEND ≠ 0 then accessMode ||| c.O_APPEND else accessMode
  let m2 := if flag &&& c.O_TRUNC ≠ 0 then m1 ||| c.O_TRUNC else m1
  let m3 := if flag &&& c.O_CREAT ≠ 0 then m2 ||| c.O_CREAT else m2
  if flag &&& c.O_CLOEXEC ≠ 0 then m3 ||| c.O_CLOEXEC else m3

/-- The access-mode decoding of `open`: the low two bits of `flags` must
equal exactly one of the platform's `O_RDONLY` / `O_WRONLY` / `O_RDWR`
values; the result is the `writable` flag of the new handle (`none` when no
mode matches, which `open` turns into an unsupported error). -/
def openWritable (c : Consts) (flag : Nat) : Option Bool :=
  if flag &&& 3 = c.O_RDONLY then some false
  else if flag &&& 3 = c.O_WRONLY then some true
  else if flag &&& 3 = c.O_RDWR then some true
  else none

/-- `open(path, flags)`.  `hostOpen` is the host's answer to
`options.open(&path)`: the id of the opened file resource, or an errno. -/
def openSyscall (c : Consts) (iso : Bool) (st : MState) (flag : Nat) (pathPtr : Nat)
    (hostOpen : Except Errno Nat) : Except InterpErr (MState × Int) :=
  match check_no_isolation iso with
  | .error e => .error e
  | .ok _ =>
  -- the access mode constants must fit in the low two bits of the flag word
  if (c.O_RDONLY ||| c.O_WRONLY ||| c.O_RDWR) &&& 0xFFFFFFFC ≠ 0 then
    .error .unsupported
  else
    match openWritable c flag with
    | none => .error .unsupported
    | some writable =>
      if flag ≠ openMirror c flag then .error .unsupported
      else
        match readCStr st.mem pathPtr with
        | .error e => .error e
        | .ok path =>
          let st1 := { st with hostOps := st.hostOps ++ [HostOp.openOp path flag] }
          match hostOpen with
          | .ok fileId =>
            let r := insert_fd st1.fh ⟨fileId, writable⟩
            .ok ({ st1 with fh := r.1 }, r.2)
          | .error e => .ok (set_last_error st1 e, -1)

/-- `fcntl(fd, cmd, start?)`.  `cloneResult` is the host's answer to
`file.try_clone()`: the id of the duplicated resource, or an errno. -/
def fcntl (c : Consts) (iso : Bool) (st : MState) (fd cmd : Int) (startArg : Option Int)
    (cloneResult : Except Errno Nat) : Except InterpErr (MState × Int) :=
  match check_no_isolation iso with
  | .error e => .error e
  | .ok _ =>
  if cmd = c.F_GETFD then
    if containsFd st.fh fd then .ok (st, c.FD_CLOEXEC)
    else .ok (handle_not_found st)
  else if cmd = c.F_DUPFD ∨ cmd = c.F_DUPFD_CLOEXEC then
    if fd < MIN_NORMAL_FILE_FD then .error .unsupported
    else
      match startArg with
      | none => .error .unsupported
      | some start =>
        match lookupFd st.fh fd with
        | none => .ok (handle_not_found st)
        | some h =>
          let st1 := { st with hostOps := st.hostOps ++ [HostOp.cloneOp h.fileId] }
          match cloneResult with
          | .ok newId =>
            let r := insert_fd_with_min_fd st1.fh ⟨newId, h.writable⟩ start
            .ok ({ st1 with fh := r.1 }, r.2)
          | .error e => .ok (set_last_error st1 e, -1)
  else .error .unsupported

/-- `close(fd)`.  `syncResult` is the host's answer to `file.sync_all()`,
consulted only for writable handles; dropping the file afterwards is not
observable beyond the removal itself. -/
def close (iso : Bool) (st : MState) (fd : Int) (syncResult : Except Errno Unit) :
    Except InterpErr (MState × Int) :=
  match check_no_isolation iso with
  | .error e => .error e
  | .ok _ =>
  match lookupFd st.fh fd with
  | some h =>
    let st1 := { st with fh := ⟨removeFdList st.fh.handles fd⟩ }
    if h.writable then
      let st2 := { st1 with hostOps := st1.hostOps ++ [HostOp.syncOp h.fileId] }
      match syncResult with
      | .ok _ => .ok (st2, 0)
      | .error e => .ok (set_last_error st2 e, -1)
    else .ok (st1, 0)
  | none => .ok (handle_not_found st)

/-- `read(fd, buf, count)`.  `tMax` and `hMax` are the target's and host's
`isize::MAX`; `hostRead` is the host's answer to `file.read`: the bytes
actually read (never more than the capped count), or an errno.  The scratch
buffer is `count` zero bytes with the host bytes at the front, and on host
success it is written to guest memory in full. -/
def readSys (iso : Bool) (st : MState) (fd : Int) (buf count : Nat) (tMax hMax : Nat)
    (hostRead : Except Errno (List Nat)) : Except InterpErr (MState × Int) :=
  match check_no_isolation iso with
  | .error e => .error e
  | .ok _ =>
  if checkPtrAccess st.mem buf count then
    let count1 := min (min count tMax) hMax
    match lookupFd st.fh fd with
    | some h =>
      let st1 := { st with hostOps := st.hostOps ++ [HostOp.readOp h.fileId count1] }
      match hostRead with
      | .ok hostBytes =>
        let bytes := hostBytes ++ List.replicate (count1 - hostBytes.length) 0
        .ok ({ st1 with mem := writeBytes st1.mem buf bytes }, (hostBytes.length : Int))
      | .error e => .ok (set_last_error st1 e, -1)
    | none => .ok (handle_not_found st)
  else .error .memFault

/-- `write(fd, buf, count)`.  `hostWrite` is the host's answer to
`file.write`: the number of bytes written, or an errno. -/
def writeSys (iso : Bool) (st : MState) (fd : Int) (buf count : Nat) (tMax hMax : Nat)
    (hostWrite : Except Errno Int) : Except InterpErr (MState × Int) :=
  match check_no_isolation iso with
  | .error e => .error e
  | .ok _ =>
  if checkPtrAccess st.mem buf count then
    let count1 := min (min count tMax) hMax
    match lookupFd st.fh fd with
    | some h =>
      let bytes := readBytes st.mem buf count1
      let st1 := { st with hostOps := st.hostOps ++ [HostOp.writeOp h.fileId bytes] }
      .ok (try_unwrap_io_result st1 hostWrite)
    | none => .ok (handle_not_found st)
  else .error .memFault

/-- `lseek64(fd, offset, whence)`.  `hostSeek` is the host's answer to
`file.seek`: the new absolute position, or an errno. -/
def lseek64 (c : Consts) (iso : Bool) (st : MState) (fd : Int) (offset : Int) (whence : Int)
    (hostSeek : Except Errno Int) : Except InterpErr (MState × Int) :=
  match check_no_isolation iso with
  | .error e => .error e
  | .ok _ =>
  let seekFromOpt : Option SeekFrom :=
    if whence = c.SEEK_SET then some (SeekFrom.start (offset % (2 ^ 64)).toNat)
    else if whence = c.SEEK_CUR then some (SeekFrom.current offset)
    else if whence = c.SEEK_END then some (SeekFrom.fromEnd offset)
    else none
  match seekFromOpt with
  | none => .ok (set_last_error st Errno.EINVAL, -1)
  | some sf =>
    match lookupFd st.fh fd with
    | some h =>
      let st1 := { st with hostOps := st.hostOps ++ [HostOp.seekOp h.fileId sf] }
      .ok (try_unwrap_io_result st1 hostSeek)
    | none => .ok (handle_not_found st)

/-- `unlink(path)`. -/
def unlink (iso : Bool) (st : MState) (pathPtr : Nat) (hostResult : Except Errno Unit) :
    Except InterpErr (MState × Int) :=
  match check_no_isolation iso with
  | .error e => .error e
  | .ok _ =>
  match readCStr st.mem pathPtr with
  | .error e => .error e
  | .ok path =>
    let st1 := { st with hostOps := st.hostOps ++ [HostOp.unlinkOp path] }
    .ok (try_unwrap_io_result st1 (hostResult.map (fun _ => 0)))

/-- `symlink(target, linkpath)`.  Note that, unlike `rename`, the source
performs no null-pointer check: both paths are read straight away. -/
def symlink (iso : Bool) (st : MState) (targetPtr linkPtr : Nat)
    (hostResult : Except Errno Unit) : Except InterpErr (MState × Int) :=
  match check_no_isolation iso with
  | .error e => .error e
  | .ok _ =>
  match readCStr st.mem targetPtr with
  | .error e => .error e
  | .ok target =>
    match readCStr st.mem linkPtr with
    | .error e => .error e
    | .ok linkpath =>
      let st1 := { st with hostOps := st.hostOps ++ [HostOp.symlinkOp target linkpath] }
      .ok (try_unwrap_io_result st1 (hostResult.map (fun _ => 0)))

/-- `rename(oldpath, newpath)`: both path pointers are checked for null
first; a null pointer records `EFAULT` and returns `-1` before any host
call. -/
def rename (iso : Bool) (st : MState) (oldPtr newPtr : Nat)
    (hostResult : Except Errno Unit) : Except InterpErr (MState × Int) :=
  match check_no_isolation iso with
  | .error e => .error e
  | .ok _ =>
  if oldPtr = 0 ∨ newPtr = 0 then
    .ok (set_last_error st Errno.EFAULT, -1)
  else
    match readCStr st.mem oldPtr with
    | .error e => .error e
    | .ok oldPath =>
      match readCStr st.mem newPtr with
      | .error e => .error e
      | .ok newPath =>
        let st1 := { st with hostOps := st.hostOps ++ [HostOp.renameOp oldPath newPath] }
        .ok (try_unwrap_io_result st1 (hostResult.map (fun _ => 0)))

/-- Host file type, as classified by `from_meta`: regular file, directory,
or anything else (which the source tags as a symlink). -/
inductive FileKind where
  | regular
  | directory
  | other
deriving DecidableEq, Repr

/-- Raw host metadata, as produced by `std::fs::metadata` and friends:
file type, length, and the three timestamps, each either absent (the host
cannot supply that kind) or a `SystemTime` modelled as signed nanoseconds
since the Unix epoch. -/
structure RawMeta where
  kind : FileKind
  size : Nat
  created : Option Int
  accessed : Option Int
  modified : Option Int
deriving DecidableEq, Repr

/-- `extract_sec_and_nsec`: an absent host time contributes no value; a
present time before the epoch fails the whole evaluation
(`system_time_to_duration` throws unsupported); otherwise it is split into
seconds and nanoseconds. -/
def extract_sec_and_nsec : Option Int → Except InterpErr (Option (Nat × Nat))
  | none => .ok none
  | some t =>
    if t < 0 then .error .unsupported
    else .ok (some ((t / 1000000000).toNat, (t % 1000000000).toNat))

/-- Normalized metadata (`FileMetadata` in the source): the `S_IF*` mode
tag, the size, and the three optional timestamps. -/
structure FileMetadata where
  mode : Nat
  size : Nat
  created : Option (Nat × Nat)
  accessed : Option (Nat × Nat)
  modified : Option (Nat × Nat)
deriving DecidableEq, Repr

/-- The mode tag `from_meta` picks for a file type. -/
def modeFor (c : Consts) : FileKind → Nat
  | .regular => c.S_IFREG
  | .directory => c.S_IFDIR
  | .other => c.S_IFLNK

/-- The pure tail of `from_meta` on a host success: classify the type and
convert the timestamps (created, accessed, modified, in source order). -/
def FileMetadata.ofRaw (c : Consts) (rm : RawMeta) : Except InterpErr FileMetadata :=
  match extract_sec_and_nsec rm.created with
  | .error e => .error e
  | .ok created =>
    match extract_sec_and_nsec rm.accessed with
    | .error e => .error e
    | .ok accessed =>
      match extract_sec_and_nsec rm.modified with
      | .error e => .error e
      | .ok modified => .ok ⟨modeFor c rm.kind, rm.size, created, accessed, modified⟩

/-- `FileMetadata::from_meta`: a host error is recorded in the errno sink
and yields "no metadata" (the caller then returns `-1`). -/
def from_meta (c : Consts) (st : MState) (metadata : Except Errno RawMeta) :
    Except InterpErr (MState × Option FileMetadata) :=
  match metadata with
  | .error e => .ok (set_last_error st e, none)
  | .ok rm =>
    match FileMetadata.ofRaw c rm with
    | .error e => .error e
    | .ok md => .ok (st, some md)

/-- `FileMetadata::from_fd`: an absent fd records `EBADF` (via
`handle_not_found`) and yields no metadata; a present fd queries the host. -/
def from_fd (c : Consts) (st : MState) (fd : Int) (hostMeta : Except Errno RawMeta) :
    Except InterpErr (MState × Option FileMetadata) :=
  match lookupFd st.fh fd with
  | some h =>
    let st1 := { st with hostOps := st.hostOps ++ [HostOp.fstatOp h.fileId] }
    from_meta c st1 hostMeta
  | none => .ok ((handle_not_found st).1, none)

/-- `FileMetadata::from_path`. -/
def from_path (c : Consts) (st : MState) (path : List Nat) (follow : Bool)
    (hostMeta : Except Errno RawMeta) : Except InterpErr (MState × Option FileMetadata) :=
  let st1 := { st with hostOps := st.hostOps ++ [HostOp.statOp path follow] }
  from_meta c st1 hostMeta

/-- The reported `stx_mask`: always `STATX_TYPE | STATX_SIZE`, plus
`STATX_ATIME` / `STATX_BTIME` / `STATX_MTIME` exactly when the
corresponding timestamp is present (in the source's order: accessed,
created, modified). -/
def statx_mask (c : Consts) (md : FileMetadata) : Nat :=
  let m0 := c.STATX_TYPE ||| c.STATX_SIZE
  let m1 := if md.accessed.isSome then m0 ||| c.STATX_ATIME else m0
  let m2 := if md.created.isSome then m1 ||| c.STATX_BTIME else m1
  if md.modified.isSome then m2 ||| c.STATX_MTIME else m2

/-- The ordered field values `statx` writes to the guest `statx` buffer
(`write_packed_immediates` is abstracted as this ordered list): mask,
blksize, attributes, nlink, uid, gid, mode, padding, ino, size, blocks,
attributes, atime sec/nsec, padding, btime sec/nsec, padding, ctime
sec/nsec, padding, mtime sec/nsec, padding, then rdev and dev major/minor.
Unsupported fields are written as zero. -/
def statx_imms (c : Consts) (md : FileMetadata) : List Nat :=
  let access := md.accessed.getD (0, 0)
  let created := md.created.getD (0, 0)
  let modified := md.modified.getD (0, 0)
  [statx_mask c md, 0, 0, 0, 0, 0, md.mode, 0, 0, md.size, 0, 0,
   access.1, access.2, 0, created.1, created.2, 0, 0, 0, 0,
   modified.1, modified.2, 0, 0, 0, 0, 0]

/-- A Unix path is absolute when it starts with a slash (byte 47). -/
def isAbsolutePath (path : List Nat) : Bool :=
  path.head? == some 47

/-- `linux_statx(dirfd, pathname, flags, mask, statxbuf)`.  The requested
mask operand is read but never used (`_mask_op` in the source).  On
success the written field values are also returned as the third component;
on any `-1` return nothing is written and the list is empty. -/
def linux_statx (c : Consts) (iso : Bool) (platform : Platform) (st : MState)
    (dirfd : Int) (pathnamePtr : Nat) (flags : Nat) (_rmask : Nat) (statxbufPtr : Nat)
    (hostMeta : Except Errno RawMeta) : Except InterpErr (MState × Int × List Nat) :=
  match check_no_isolation iso with
  | .error e => .error e
  | .ok _ =>
  match check_platform platform Platform.linux with
  | .error e => .error e
  | .ok _ =>
  if statxbufPtr = 0 ∨ pathnamePtr = 0 then
    .ok (set_last_error st Errno.EFAULT, -1, [])
  else
    match readCStr st.mem pathnamePtr with
    | .error e => .error e
    | .ok path =>
      let empty_path_flag := flags &&& c.AT_EMPTY_PATH ≠ 0
      if ¬ (isAbsolutePath path = true ∨ dirfd = c.AT_FDCWD ∨ (path = [] ∧ empty_path_flag)) then
        .error .unsupported
      else
        let follow_symlink := flags &&& c.AT_SYMLINK_NOFOLLOW = 0
        let mdRes := if path = [] ∧ empty_path_flag
          then from_fd c st dirfd hostMeta
          else from_path c st path follow_symlink hostMeta
        match mdRes with
        | .error e => .error e
        | .ok (st1, none) => .ok (st1, -1, [])
        | .ok (st1, some md) => .ok (st1, 0, statx_imms c md)

/-- The ordered field values `macos_stat_write_buf` writes to the guest
`stat` buffer: dev, mode, nlink, ino, uid, gid, rdev, padding, atime
sec/nsec, mtime sec/nsec, ctime sec/nsec, birthtime sec/nsec, size, blocks,
blksize, flags, gen.  Unsupported fields are written as zero. -/
def macos_stat_write_buf (md : FileMetadata) : List Nat :=
  let access := md.accessed.getD (0, 0)
  let created := md.created.getD (0, 0)
  let modified := md.modified.getD (0, 0)
  [0, md.mode, 0, 0, 0, 0, 0, 0, access.1, access.2, modified.1, modified.2,
   0, 0, created.1, created.2, md.size, 0, 0, 0, 0]

/-- `macos_stat_or_lstat`: read the path and serialize the metadata found
there. -/
def macos_stat_or_lstat (c : Consts) (st : MState) (follow : Bool) (pathPtr : Nat)
    (hostMeta : Except Errno RawMeta) : Except InterpErr (MState × Int × List Nat) :=
  match readCStr st.mem pathPtr with
  | .error e => .error e
  | .ok path =>
    match from_path c st path follow hostMeta with
    | .error e => .error e
    | .ok (st1, none) => .ok (st1, -1, [])
    | .ok (st1, some md) => .ok (st1, 0, macos_stat_write_buf md)

/-- `macos_stat`: always follows symlinks. -/
def macos_stat (c : Consts) (iso : Bool) (platform : Platform) (st : MState)
    (pathPtr : Nat) (hostMeta : Except Errno RawMeta) :
    Except InterpErr (MState × Int × List Nat) :=
  match check_no_isolation iso with
  | .error e => .error e
  | .ok _ =>
  match check_platform platform Platform.macos with
  | .error e => .error e
  | .ok _ => macos_stat_or_lstat c st true pathPtr hostMeta

/-- `macos_lstat`: never follows symlinks. -/
def macos_lstat (c : Consts) (iso : Bool) (platform : Platform) (st : MState)
    (pathPtr : Nat) (hostMeta : Except Errno RawMeta) :
    Except InterpErr (MState × Int × List Nat) :=
  match check_no_isolation iso with
  | .error e => .error e
  | .ok _ =>
  match check_platform platform Platform.macos with
  | .error e => .error e
  | .ok _ => macos_stat_or_lstat c st false pathPtr hostMeta

/-- `macos_fstat`. -/
def macos_fstat (c : Consts) (iso : Bool) (platform : Platform) (st : MState)
    (fd : Int) (hostMeta : Except Errno RawMeta) :
    Except InterpErr (MState × Int × List Nat) :=
  match check_no_isolation iso with
  | .error e => .error e
  | .ok _ =>
  match check_platform platform Platform.macos with
  | .error e => .error e
  | .ok _ =>
  match from_fd c st fd hostMeta with
  | .error e => .error e
  | .ok (st1, none) => .ok (st1, -1, [])
  | .ok (st1, some md) => .ok (st1, 0, macos_stat_write_buf md)

/-- Invariant of reachable fd tables: entries are in strictly ascending key
order (the `BTreeMap` representation) and every key is a normal fd
(`≥ MIN_NORMAL_FILE_FD`). -/
def goodTable (fh : FileHandler) : Prop :=
  fh.handles.Pairwise (fun a b => a.1 < b.1) ∧
    ∀ p ∈ fh.handles, MIN_NORMAL_FILE_FD ≤ p.1

/-- Concrete guest memory used by witnesses: bytes 5, 6, 7 at addresses
100..102 (the only valid range), a C string "/" at pointer 50 and "a" at
pointer 200. -/
def wMem : Memory :=
  { bytes := fun a => if a = 100 then 5 else if a = 101 then 6 else if a = 102 then 7 else 0
    valid := fun a => decide (100 ≤ a) && decide (a < 103)
    cstrs := fun p => if p = 50 then some [47] else if p = 200 then some [97] else none }

/-- Witness state with an empty fd table. -/
def emptyState : MState :=
  { fh := ⟨[]⟩, mem := wMem, lastError := none, hostOps := [] }

/-- Witness state with one writable file open at fd 3. -/
def oneFileState : MState :=
  { fh := ⟨[(3, ⟨1, true⟩)]⟩, mem := wMem, lastError := none, hostOps := [] }

/-- Witness state with one read-only file open at fd 3. -/
def roFileState : MState :=
  { fh := ⟨[(3, ⟨1, false⟩)]⟩, mem := wMem, lastError := none, hostOps := [] }

/-- Witness host metadata: a regular file of size 1234 whose host supplies
the accessed and modified times but not the creation time. -/
def wRm : RawMeta :=
  ⟨FileKind.regular, 1234, none, some 1500000000, some 2000000000⟩

/-- The normalized form of `wRm` on a Linux target. -/
def wMd : FileMetadata :=
  ⟨32768, 1234, none, some (1, 500000000), some (2, 0)⟩

/-- The state `linux_statx` produces in the `C4` witness run. -/
def wStatxState : MState :=
  { emptyState with hostOps := [HostOp.statOp [47] true] }

/- ### Lemmas about the fd table -/

theorem lookupFd_eq_none_iff (fh : FileHandler) (fd : Int) :
    lookupFd fh fd = none ↔ ∀ p ∈ fh.handles, p.1 ≠ fd := by
  simp [lookupFd, List.find?_eq_none]

theorem containsFd_eq_false_iff (fh : FileHandler) (fd : Int) :
    containsFd fh fd = false ↔ ∀ p ∈ fh.handles, p.1 ≠ fd := by
  simp [containsFd, lookupFd, List.find?_eq_none]

/-- The last entry of a list is a member. -/
theorem mem_of_getLast?_eq : ∀ (l : List (Int × FileHandle)) (q : Int × FileHandle),
    l.getLast? = some q → q ∈ l := by
  intro l
  induction l with
  | nil => intro q h; simp at h
  | cons x xs ih =>
    intro q h
    cases xs with
    | nil =>
      simp at h
      subst h
      exact List.mem_singleton.mpr rfl
    | cons y ys =>
      rw [List.getLast?_cons_cons] at h
      exact List.mem_cons_of_mem _ (ih q h)

/-- Any fd `findGap` returns lies at or above the counter it started from
and is not among the keys it scanned. -/
theorem findGap_spec : ∀ (ks : List Int) (c r : Int),
    ks.Pairwise (· < ·) → (∀ k ∈ ks, c ≤ k) → findGap ks c = some r →
    c ≤ r ∧ r ∉ ks := by
  intro ks
  induction ks with
  | nil => intro c r _ _ hfind; simp [findGap] at hfind
  | cons k ks ih =>
    intro c r hp hge hfind
    rw [findGap] at hfind
    rcases List.pairwise_cons.mp hp with ⟨hhead, htail⟩
    by_cases hk : k = c
    · rw [if_neg (by simp [hk])] at hfind
      have hge' : ∀ x ∈ ks, c + 1 ≤ x := by
        intro x hx
        have := hhead x hx
        omega
      obtain ⟨h1, h2⟩ := ih (c + 1) r htail hge' hfind
      refine ⟨by omega, ?_⟩
      intro hr
      rcases List.mem_cons.mp hr with rfl | hr'
      · omega
      · exact h2 hr'
    · rw [if_pos hk] at hfind
      rw [Option.some_inj] at hfind
      subst hfind
      refine ⟨le_refl _, ?_⟩
      intro hr
      rcases List.mem_cons.mp hr with heq | hr'
      · exact hk heq.symm
      · have h1 := hhead _ hr'
        have h2 := hge k (List.mem_cons_self _ _)
        omega

/-- In a strictly ascending table the last entry has the maximal key. -/
theorem getLast_key_max : ∀ (l : List (Int × FileHandle)) (q : Int × FileHandle),
    l.Pairwise (fun a b => a.1 < b.1) → l.getLast? = some q →
    ∀ p ∈ l, p.1 ≤ q.1 := by
  intro l
  induction l with
  | nil => intro q _ hlast; simp at hlast
  | cons x xs ih =>
    intro q hp hlast p hmem
    rcases List.pairwise_cons.mp hp with ⟨hhead, htail⟩
    cases xs with
    | nil =>
      simp at hlast hmem
      subst hlast; subst hmem; exact le_refl _
    | cons y ys =>
      rw [List.getLast?_cons_cons] at hlast
      have hq : q ∈ y :: ys := mem_of_getLast?_eq _ q hlast
      rcases List.mem_cons.mp hmem with rfl | hmem'
      · exact le_of_lt (hhead q hq)
      · exact ih q htail hlast p hmem'

/-- Every entry of `insertSorted fd h l` is the new entry or an old one. -/
theorem insertSorted_subset : ∀ (l : List (Int × FileHandle)) (fd : Int) (h : FileHandle)
    (p : Int × FileHandle), p ∈ insertSorted fd h l → p = (fd, h) ∨ p ∈ l := by
  intro l fd h
  induction l with
  | nil =>
    intro p hp
    rw [insertSorted] at hp
    exact Or.inl (List.mem_singleton.mp hp)
  | cons x xs ih =>
    intro p hp
    rw [insertSorted] at hp
    by_cases hlt : fd < x.1
    · rw [if_pos hlt] at hp
      rcases List.mem_cons.mp hp with rfl | hp'
      · exact Or.inl rfl
      · exact Or.inr hp'
    · rw [if_neg hlt] at hp
      rcases List.mem_cons.mp hp with rfl | hp'
      · exact Or.inr (List.mem_cons_self _ _)
      · rcases ih p hp' with h1 | h2
        · exact Or.inl h1
        · exact Or.inr (List.mem_cons_of_mem _ h2)

/-- Inserting a fresh key into a strictly ascending table keeps it strictly
ascending. -/
theorem insertSorted_pairwise : ∀ (l : List (Int × FileHandle)) (fd : Int) (h : FileHandle),
    l.Pairwise (fun a b => a.1 < b.1) → (∀ p ∈ l, p.1 ≠ fd) →
    (insertSorted fd h l).Pairwise (fun a b => a.1 < b.1) := by
  intro l fd h
  induction l with
  | nil => intro _ _; rw [insertSorted]; simp
  | cons x xs ih =>
    intro hp hfresh
    rw [insertSorted]
    rcases List.pairwise_cons.mp hp with ⟨hhead, htail⟩
    by_cases hlt : fd < x.1
    · rw [if_pos hlt]
      refine List.pairwise_cons.mpr ⟨?_, hp⟩
      intro b hb
      rcases List.mem_cons.mp hb with rfl | hb'
      · exact hlt
      · exact lt_trans hlt (hhead b hb')
    · rw [if_neg hlt]
      have hxfd : x.1 < fd :=
        lt_of_le_of_ne (not_lt.mp hlt) (hfresh x (List.mem_cons_self _ _))
      refine List.pairwise_cons.mpr
        ⟨?_, ih htail (fun p hp' => hfresh p (List.mem_cons_of_mem _ hp'))⟩
      intro b hb
      rcases insertSorted_subset xs fd h b hb with rfl | hb'
      · exact hxfd
      · exact hhead b hb'

/-- The allocated fd is always a normal fd and never a key already in use:
the gap candidate is fresh by `findGap_spec`, and the fallback is one past
the maximal key. -/
theorem allocNewFd_spec (fh : FileHandler) (minfd : Int) (hg : goodTable fh) :
    MIN_NORMAL_FILE_FD ≤ allocNewFd fh minfd ∧
      ∀ p ∈ fh.handles, p.1 ≠ allocNewFd fh minfd := by
  obtain ⟨hsort, hge3⟩ := hg
  have hMIN : MIN_NORMAL_FILE_FD = 3 := rfl
  rw [allocNewFd]
  set m := max minfd MIN_NORMAL_FILE_FD with hm
  have hm3 : MIN_NORMAL_FILE_FD ≤ m := le_max_right _ _
  have hrk_sorted : (rangeKeysOf fh m).Pairwise (· < ·) := by
    rw [rangeKeysOf, List.pairwise_map]
    exact hsort.filter _
  have hrk_ge : ∀ k ∈ rangeKeysOf fh m, m ≤ k := by
    intro k hk
    rw [rangeKeysOf] at hk
    rcases List.mem_map.mp hk with ⟨p, hp, rfl⟩
    exact of_decide_eq_true (List.mem_filter.mp hp).2
  cases hfind : findGap (rangeKeysOf fh m) m with
  | some r =>
    obtain ⟨hcr, hnotin⟩ := findGap_spec (rangeKeysOf fh m) m r hrk_sorted hrk_ge hfind
    rw [Option.getD_some]
    refine ⟨le_trans hm3 hcr, ?_⟩
    intro p hp hpe
    by_cases hge : m ≤ p.1
    · exact hnotin (by
        rw [rangeKeysOf]
        exact List.mem_map.mpr ⟨p, List.mem_filter.mpr ⟨hp, decide_eq_true hge⟩, hpe⟩)
    · exact hge (hpe ▸ hcr)
  | none =>
    rw [Option.getD_none]
    cases hlast : fh.handles.getLast? with
    | some q =>
      simp only [fallbackFd, hlast]
      have hq3 : MIN_NORMAL_FILE_FD ≤ q.1 := hge3 q (mem_of_getLast?_eq _ q hlast)
      refine ⟨by omega, ?_⟩
      intro p hp hpe
      have := getLast_key_max fh.handles q hsort hlast p hp
      omega
    | none =>
      simp only [fallbackFd, hlast]
      have hnil : fh.handles = [] := by
        cases hh : fh.handles with
        | nil => rfl
        | cons a l => rw [hh] at hlast; simp [List.getLast?_cons_cons] at hlast
      refine ⟨hm3, ?_⟩
      intro p hp
      rw [hnil] at hp
      simp at hp

/-- `insert_fd_with_min_fd` preserves the table invariant, allocates at or
above `MIN_NORMAL_FILE_FD`, and never duplicates a key. -/
theorem insert_fd_with_min_fd_good (fh : FileHandler) (h : FileHandle) (minfd : Int)
    (hg : goodTable fh) :
    goodTable (insert_fd_with_min_fd fh h minfd).1 ∧
      MIN_NORMAL_FILE_FD ≤ (insert_fd_with_min_fd fh h minfd).2 ∧
      containsFd fh (insert_fd_with_min_fd fh h minfd).2 = false := by
  obtain ⟨halloc3, hfresh⟩ := allocNewFd_spec fh minfd hg
  obtain ⟨hsort, hge3⟩ := hg
  refine ⟨⟨?_, ?_⟩, halloc3, (containsFd_eq_false_iff fh _).mpr hfresh⟩
  · exact insertSorted_pairwise fh.handles _ h hsort hfresh
  · intro p hp
    rcases insertSorted_subset fh.handles _ h p hp with rfl | hp'
    · exact halloc3
    · exact hge3 p hp'

/-- Removal preserves the table invariant. -/
theorem removeFd_good (fh : FileHandler) (fd : Int) (hg : goodTable fh) :
    goodTable ⟨removeFdList fh.handles fd⟩ := by
  obtain ⟨hsort, hge3⟩ := hg
  exact ⟨hsort.filter _, fun p hp => hge3 p (List.mem_of_mem_filter hp)⟩

/-- After removal the fd is gone. -/
theorem lookupFd_remove_self (l : List (Int × FileHandle)) (fd : Int) :
    lookupFd ⟨removeFdList l fd⟩ fd = none := by
  rw [lookupFd_eq_none_iff]
  intro p hp
  have := (List.mem_filter.mp hp).2
  simpa using this

/-- Reserved fds are never keys of a well-formed table. -/
theorem lookupFd_none_of_lt_min (fh : FileHandler) (fd : Int) (hg : goodTable fh)
    (hlt : fd < MIN_NORMAL_FILE_FD) : lookupFd fh fd = none := by
  rw [lookupFd_eq_none_iff]
  intro p hp
  have h1 := hg.2 p hp
  have hMIN : MIN_NORMAL_FILE_FD = 3 := rfl
  omega

/- ### Claim theorems -/

/-- Claim C1 (refuted; code bug): `insert_with_min` is claimed to allocate
the lowest fd that is unused and at or above `max(min_fd, 3)`.  With only
fd 3 in the table and `min_fd = 5`, the lowest unused fd at or above 5 is 5,
but the range scan above the floor is empty, so the fallback returns one
past the maximum key of the whole table: 4, which is below the floor, as
this evaluation shows. -/
theorem C1_insert_fd_below_min_fd :
    (insert_fd_with_min_fd ⟨[(3, ⟨10, true⟩)]⟩ ⟨11, true⟩ 5).2 = 4 ∧
    containsFd ⟨[(3, ⟨10, true⟩)]⟩ 4 = false ∧
    containsFd ⟨[(3, ⟨10, true⟩)]⟩ 5 = false ∧ (4 : Int) < 5 := by
  decide

/-- Claim C10: every key of the fd table stays at or above
`MIN_NORMAL_FILE_FD = 3`: allocation clamps its floor to `max(min_fd, 3)`
even for negative `min_fd` and never duplicates or lowers a key, removal
only deletes entries, `F_DUPFD` with any start on a present fd three or
larger returns a new fd at or above 3, and `close`, `read`, `write`,
`lseek`, and `fstat` on fds 0, 1, 2 take the absent-fd path (`EBADF`, -1). -/
theorem C10_fd_table_invariant (st : MState) (hg : goodTable st.fh) :
    (∀ (h : FileHandle) (minfd : Int),
        goodTable (insert_fd_with_min_fd st.fh h minfd).1 ∧
        MIN_NORMAL_FILE_FD ≤ (insert_fd_with_min_fd st.fh h minfd).2 ∧
        containsFd st.fh (insert_fd_with_min_fd st.fh h minfd).2 = false) ∧
    (∀ fd : Int, goodTable ⟨removeFdList st.fh.handles fd⟩) ∧
    (∀ (fd : Int) (h : FileHandle) (start : Int) (newId : Nat),
        lookupFd st.fh fd = some h → MIN_NORMAL_FILE_FD ≤ fd →
        fcntl linuxConsts false st fd linuxConsts.F_DUPFD (some start) (Except.ok newId)
          = Except.ok
              ({ st with
                  fh := (insert_fd_with_min_fd st.fh ⟨newId, h.writable⟩ start).1,
                  hostOps := st.hostOps ++ [HostOp.cloneOp h.fileId] },
                (insert_fd_with_min_fd st.fh ⟨newId, h.writable⟩ start).2) ∧
        MIN_NORMAL_FILE_FD ≤ (insert_fd_with_min_fd st.fh ⟨newId, h.writable⟩ start).2 ∧
        goodTable (insert_fd_with_min_fd st.fh ⟨newId, h.writable⟩ start).1) ∧
    (∀ fd : Int, fd = 0 ∨ fd = 1 ∨ fd = 2 →
        (∀ sres, close false st fd sres = Except.ok (handle_not_found st)) ∧
        (∀ buf count tMax hMax hr, checkPtrAccess st.mem buf count = true →
            readSys false st fd buf count tMax hMax hr = Except.ok (handle_not_found st)) ∧
        (∀ buf count tMax hMax hw, checkPtrAccess st.mem buf count = true →
            writeSys false st fd buf count tMax hMax hw = Except.ok (handle_not_found st)) ∧
        (∀ off hs, lseek64 linuxConsts false st fd off linuxConsts.SEEK_SET hs
            = Except.ok (handle_not_found st)) ∧
        (∀ hm, macos_fstat linuxConsts false Platform.macos st fd hm
            = Except.ok ((handle_not_found st).1, -1, []))) := by
  refine ⟨?_, ?_, ?_, ?_⟩
  · intro h minfd
    exact insert_fd_with_min_fd_good st.fh h minfd hg
  · intro fd
    exact removeFd_good st.fh fd hg
  · intro fd h start newId hlk hfd3
    obtain ⟨hgood, hge, _⟩ :=
      insert_fd_with_min_fd_good st.fh ⟨newId, h.writable⟩ start hg
    refine ⟨?_, hge, hgood⟩
    rw [fcntl]
    simp only [check_no_isolation, Bool.false_eq_true, if_false, hlk,
      if_neg (not_lt.mpr hfd3)]
    simp
    intro hcon
    exact absurd hcon (by decide)
  · intro fd hfd012
    have hlt : fd < MIN_NORMAL_FILE_FD := by
      have hMIN : MIN_NORMAL_FILE_FD = 3 := rfl
      rcases hfd012 with rfl | rfl | rfl <;> omega
    have hlk0 : lookupFd st.fh fd = none := lookupFd_none_of_lt_min st.fh fd hg hlt
    refine ⟨?_, ?_, ?_, ?_, ?_⟩
    · intro sres
      simp [close, check_no_isolation, hlk0]
    · intro buf count tMax hMax hr hb
      simp [readSys, check_no_isolation, hlk0, hb]
    · intro buf count tMax hMax hw hb
      simp [writeSys, check_no_isolation, hlk0, hb]
    · intro off hs
      simp [lseek64, check_no_isolation, hlk0]
    · intro hm
      simp [macos_fstat, check_no_isolation, check_platform, from_fd, hlk0]

/-- Witness for C10: the invariant conjuncts applied to the concrete table
with one entry at fd 3, a negative min_fd, and fd 0. -/
theorem C10_witness :
    (goodTable (insert_fd_with_min_fd oneFileState.fh ⟨7, false⟩ (-5)).1 ∧
      MIN_NORMAL_FILE_FD ≤ (insert_fd_with_min_fd oneFileState.fh ⟨7, false⟩ (-5)).2 ∧
      containsFd oneFileState.fh (insert_fd_with_min_fd oneFileState.fh ⟨7, false⟩ (-5)).2
        = false) ∧
    close false oneFileState 0 (Except.ok ()) = Except.ok (handle_not_found oneFileState) :=
  ⟨(C10_fd_table_invariant oneFileState ⟨by decide, by decide⟩).1 ⟨7, false⟩ (-5),
   ((C10_fd_table_invariant oneFileState ⟨by decide, by decide⟩).2.2.2 0
      (Or.inl rfl)).1 (Except.ok ())⟩

/-- Claim C2 (refuted; code bug): the claim says a successful host read of
`c` bytes writes exactly `c` bytes to the guest buffer, leaving the rest of
the buffer unchanged.  The code instead writes the whole `count`-sized
scratch buffer, whose tail beyond `c` is zero-filled.  Here the guest
buffer at 100..102 holds bytes 5, 6, 7, the host read returns one byte 9,
and after the call the buffer holds 9, 0, 0: the untouched-by-the-host
bytes at 101 and 102 were overwritten with zeros. -/
theorem C2_short_read_zero_fills_tail :
    (readSys false oneFileState 3 100 3 1000 1000 (Except.ok [9])).toOption.map
        (fun r => (r.2, r.1.mem.bytes 100, r.1.mem.bytes 101, r.1.mem.bytes 102))
      = some (1, 9, 0, 0) ∧
    oneFileState.mem.bytes 101 = 6 ∧ oneFileState.mem.bytes 102 = 7 := by
  refine ⟨rfl, rfl, rfl⟩

/-- Claim C3, counterexample: the claim says `symlink` checks its path
pointers for null and fails with errno `EFAULT` and return value -1.  In
the code `symlink` has no null check at all: with a null target pointer the
C-string read faults and the call aborts with a memory-fault interpreter
error instead of returning `-1` with `EFAULT`. -/
theorem C3_symlink_null_no_efault :
    symlink false emptyState 0 200 (Except.ok ()) = Except.error InterpErr.memFault := rfl

/-- Claim C3, amended: `rename` checks both path pointers for null and, if
either is null, records `EFAULT` and returns -1 before any host filesystem
call (the host-operation log is unchanged); `symlink` performs no
null-pointer check — a null pointer surfaces as a memory-fault interpreter
error raised while reading the path, which also happens before any host
filesystem call is made. -/
theorem C3_rename_null_efault_symlink_unchecked (st : MState) (a b : Nat)
    (hres : Except Errno Unit) (hnull : a = 0 ∨ b = 0) :
    (rename false st a b hres = Except.ok (set_last_error st Errno.EFAULT, -1) ∧
      (set_last_error st Errno.EFAULT).hostOps = st.hostOps ∧
      (set_last_error st Errno.EFAULT).fh = st.fh) ∧
    symlink false st a b hres = Except.error InterpErr.memFault := by
  constructor
  · refine ⟨?_, rfl, rfl⟩
    rw [rename]
    simp [check_no_isolation, hnull]
  · rw [symlink]
    simp only [check_no_isolation, Bool.false_eq_true, if_false]
    rcases hnull with rfl | rfl
    · rw [readCStr]
      simp
    · by_cases ha : a = 0
      · rw [readCStr]
        simp [ha]
      · rw [readCStr]
        simp only [if_neg ha]
        cases st.mem.cstrs a with
        | none => rfl
        | some s =>
          rw [readCStr]
          simp

/-- Witness for C3: the amended statement applied at null pointers. -/
theorem C3_witness :
    rename false emptyState 0 200 (Except.ok ())
      = Except.ok (set_last_error emptyState Errno.EFAULT, -1) ∧
    symlink false emptyState 200 0 (Except.ok ()) = Except.error InterpErr.memFault :=
  ⟨(C3_rename_null_efault_symlink_unchecked emptyState 0 200 (Except.ok ())
      (Or.inl rfl)).1.1,
   (C3_rename_null_efault_symlink_unchecked emptyState 200 0 (Except.ok ())
      (Or.inr rfl)).2⟩

/-- Claim C5: `open` fails as unsupported whenever the low two bits of
`flags` match none of the platform's access-mode values, or `flags` has a
set bit outside the rebuilt mirror mask (access mode plus `O_APPEND`,
`O_TRUNC`, `O_CREAT`, `O_CLOEXEC`).  The error is raised before the path is
read and before any host open, so no fd is allocated and the table is
untouched; the conclusion holds for every host-open oracle, showing the
host is never consulted. -/
theorem C5_open_unsupported_flags (c : Consts) (iso : Bool) (st : MState) (flag : Nat)
    (pathPtr : Nat) (hostOpen : Except Errno Nat)
    (hbad : (flag &&& 3 ≠ c.O_RDONLY ∧ flag &&& 3 ≠ c.O_WRONLY ∧ flag &&& 3 ≠ c.O_RDWR)
      ∨ flag ≠ openMirror c flag) :
    openSyscall c iso st flag pathPtr hostOpen = Except.error InterpErr.unsupported := by
  rw [openSyscall]
  cases iso with
  | true => rfl
  | false =>
    simp only [check_no_isolation, Bool.false_eq_true, if_false]
    by_cases hplat : (c.O_RDONLY ||| c.O_WRONLY ||| c.O_RDWR) &&& 0xFFFFFFFC ≠ 0
    · rw [if_pos hplat]
    · rw [if_neg hplat]
      cases hw : openWritable c flag with
      | none => rfl
      | some w =>
        have hmir : flag ≠ openMirror c flag := by
          rcases hbad with ⟨h1, h2, h3⟩ | hmir
          · rw [openWritable] at hw
            simp [h1, h2, h3] at hw
          · exact hmir
        simp [hmir]

/-- Witness for C5: on Linux, `O_EXCL = 128` is outside the recognized
set, so opening with `flags = 128` is refused. -/
theorem C5_witness :
    openSyscall linuxConsts false emptyState 128 50 (Except.ok 7)
      = Except.error InterpErr.unsupported :=
  C5_open_unsupported_flags linuxConsts false emptyState 128 50 (Except.ok 7)
    (Or.inr (by decide))

/-- Claim C6: `close` on a present fd always removes the entry first.  A
writable handle is synced (the sync host call is logged); a failing sync is
reported as -1 with the errno recorded even though the fd is already gone,
and a second close of the same fd then takes the not-found path.  A
read-only handle is released without any sync and the call returns 0 with
the errno sink untouched. -/
theorem C6_close_semantics (st : MState) (fd : Int) (h : FileHandle)
    (sres : Except Errno Unit) (hlk : lookupFd st.fh fd = some h) :
    (h.writable = true →
      (∀ e, sres = Except.error e →
        close false st fd sres
          = Except.ok (set_last_error
              { st with
                fh := ⟨removeFdList st.fh.handles fd⟩,
                hostOps := st.hostOps ++ [HostOp.syncOp h.fileId] } e, -1)) ∧
      (sres = Except.ok () →
        close false st fd sres
          = Except.ok ({ st with
              fh := ⟨removeFdList st.fh.handles fd⟩,
              hostOps := st.hostOps ++ [HostOp.syncOp h.fileId] }, 0))) ∧
    (h.writable = false →
      close false st fd sres
        = Except.ok ({ st with fh := ⟨removeFdList st.fh.handles fd⟩ }, 0)) ∧
    containsFd ⟨removeFdList st.fh.handles fd⟩ fd = false ∧
    (∀ (st2 : MState) (sres2 : Except Errno Unit),
        st2.fh = ⟨removeFdList st.fh.handles fd⟩ →
        close false st2 fd sres2 = Except.ok (handle_not_found st2)) := by
  refine ⟨?_, ?_, ?_, ?_⟩
  · intro hw
    constructor
    · intro e he
      subst he
      rw [close]
      simp [check_no_isolation, hlk, hw, set_last_error]
    · intro he
      subst he
      rw [close]
      simp [check_no_isolation, hlk, hw]
  · intro hw
    rw [close]
    simp [check_no_isolation, hlk, hw]
  · rw [containsFd, lookupFd_remove_self]
    rfl
  · intro st2 sres2 hfh
    rw [close]
    simp [check_no_isolation, hfh, lookupFd_remove_self]

/-- Witness for C6: closing writable fd 3 with a failing sync returns -1
with the errno recorded, yet the fd is removed. -/
theorem C6_witness :
    close false oneFileState 3 (Except.error (Errno.hostErr 5))
      = Except.ok (set_last_error
          { oneFileState with
            fh := ⟨removeFdList oneFileState.fh.handles 3⟩,
            hostOps := oneFileState.hostOps ++ [HostOp.syncOp 1] } (Errno.hostErr 5), -1) ∧
    containsFd ⟨removeFdList oneFileState.fh.handles 3⟩ 3 = false :=
  ⟨((C6_close_semantics oneFileState 3 ⟨1, true⟩ (Except.error (Errno.hostErr 5)) rfl).1
      rfl).1 (Errno.hostErr 5) rfl,
   (C6_close_semantics oneFileState 3 ⟨1, true⟩ (Except.error (Errno.hostErr 5)) rfl).2.2.1⟩

/-- Claim C7: `read` and `write` validate the whole guest buffer region of
length `count` before any host I/O: an invalid region aborts with a memory
fault for every fd and every host oracle, so no bytes are exchanged, the
fd table is unaffected, and for `write` the host file is not modified. -/
theorem C7_buffer_checked_before_io (st : MState) (fd : Int) (buf count tMax hMax : Nat)
    (hinv : checkPtrAccess st.mem buf count = false) :
    (∀ hr, readSys false st fd buf count tMax hMax hr = Except.error InterpErr.memFault) ∧
    (∀ hw, writeSys false st fd buf count tMax hMax hw = Except.error InterpErr.memFault) := by
  constructor
  · intro hr
    rw [readSys]
    simp [check_no_isolation, hinv]
  · intro hw
    rw [writeSys]
    simp [check_no_isolation, hinv]

/-- Witness for C7: the range 99..100 is partially outside the valid
region 100..102, so both calls fault. -/
theorem C7_witness :
    readSys false emptyState 5 99 2 1000 1000 (Except.ok [1])
      = Except.error InterpErr.memFault ∧
    writeSys false emptyState 5 99 2 1000 1000 (Except.ok 2)
      = Except.error InterpErr.memFault :=
  ⟨(C7_buffer_checked_before_io emptyState 5 99 2 1000 1000 (by decide)).1 (Except.ok [1]),
   (C7_buffer_checked_before_io emptyState 5 99 2 1000 1000 (by decide)).2 (Except.ok 2)⟩

/-- Claim C8, counterexample: the claim requires every dispatch operation
addressing an absent fd, `fcntl` `F_DUPFD` included, to record `EBADF` and
return -1.  But `F_DUPFD` on fd 0 — which is absent from every table, as
fds 0..2 are reserved — fails as a fatal unsupported error before the table
is even consulted, not with -1 and `EBADF`. -/
theorem C8_dupfd_reserved_fd_unsupported :
    fcntl linuxConsts false emptyState 0 linuxConsts.F_DUPFD (some 0) (Except.ok 5)
      = Except.error InterpErr.unsupported ∧
    containsFd emptyState.fh 0 = false := ⟨rfl, rfl⟩

/-- Claim C8, amended: every dispatch operation addressing an absent fd —
`close`, `read` and `write` (on a valid buffer), `lseek` with a valid
whence, `fcntl` `F_GETFD`, `fcntl` `F_DUPFD` on a non-reserved fd
(`≥ 3`; reserved fds instead fail as unsupported), `fstat`, and `statx`
via `AT_EMPTY_PATH` — records errno `EBADF`, returns -1 widened to the
caller's return type, and leaves the fd table unchanged. -/
theorem C8_absent_fd_ebadf (st : MState) (fd : Int)
    (habs : lookupFd st.fh fd = none) :
    (handle_not_found st).1.fh = st.fh ∧
    (handle_not_found st).1.lastError = some Errno.EBADF ∧
    (handle_not_found st).2 = -1 ∧
    (∀ sres, close false st fd sres = Except.ok (handle_not_found st)) ∧
    (∀ buf count tMax hMax hr, checkPtrAccess st.mem buf count = true →
        readSys false st fd buf count tMax hMax hr = Except.ok (handle_not_found st)) ∧
    (∀ buf count tMax hMax hw, checkPtrAccess st.mem buf count = true →
        writeSys false st fd buf count tMax hMax hw = Except.ok (handle_not_found st)) ∧
    (∀ off hs, lseek64 linuxConsts false st fd off linuxConsts.SEEK_SET hs
        = Except.ok (handle_not_found st)) ∧
    (∀ cl, fcntl linuxConsts false st fd linuxConsts.F_GETFD none cl
        = Except.ok (handle_not_found st)) ∧
    (MIN_NORMAL_FILE_FD ≤ fd → ∀ start cl,
        fcntl linuxConsts false st fd linuxConsts.F_DUPFD (some start) cl
          = Except.ok (handle_not_found st)) ∧
    (∀ hm, macos_fstat linuxConsts false Platform.macos st fd hm
        = Except.ok ((handle_not_found st).1, -1, [])) ∧
    (∀ pptr bufPtr flags rmask hm, bufPtr ≠ 0 → pptr ≠ 0 →
        st.mem.cstrs pptr = some [] → flags &&& linuxConsts.AT_EMPTY_PATH ≠ 0 →
        linux_statx linuxConsts false Platform.linux st fd pptr flags rmask bufPtr hm
          = Except.ok ((handle_not_found st).1, -1, [])) := by
  refine ⟨rfl, rfl, rfl, ?_, ?_, ?_, ?_, ?_, ?_, ?_, ?_⟩
  · intro sres
    rw [close]
    simp [check_no_isolation, habs]
  · intro buf count tMax hMax hr hb
    rw [readSys]
    simp [check_no_isolation, habs, hb]
  · intro buf count tMax hMax hw hb
    rw [writeSys]
    simp [check_no_isolation, habs, hb]
  · intro off hs
    rw [lseek64]
    simp [check_no_isolation, habs]
  · intro cl
    rw [fcntl]
    simp [check_no_isolation, containsFd, habs]
  · intro hfd3 start cl
    rw [fcntl]
    simp only [check_no_isolation, Bool.false_eq_true, if_false, habs,
      if_neg (not_lt.mpr hfd3)]
    simp
    intro hcon
    exact absurd hcon (by decide)
  · intro hm
    rw [macos_fstat]
    simp [check_no_isolation, check_platform, from_fd, habs]
  · intro pptr bufPtr flags rmask hm hb0 hp0 hcs hflag
    rw [linux_statx]
    simp [check_no_isolation, check_platform, hb0, hp0, readCStr, hcs, hflag,
      from_fd, habs]

/-- Witness for C8: fd 7 is absent from the empty table; close, `F_DUPFD`,
and read all take the `EBADF` path. -/
theorem C8_witness :
    close false emptyState 7 (Except.ok ()) = Except.ok (handle_not_found emptyState) ∧
    fcntl linuxConsts false emptyState 7 linuxConsts.F_DUPFD (some 1) (Except.ok 9)
      = Except.ok (handle_not_found emptyState) ∧
    readSys false emptyState 7 100 3 1000 1000 (Except.ok [1])
      = Except.ok (handle_not_found emptyState) :=
  ⟨(C8_absent_fd_ebadf emptyState 7 rfl).2.2.2.1 (Except.ok ()),
   (C8_absent_fd_ebadf emptyState 7 rfl).2.2.2.2.2.2.2.2.1 (by decide) 1 (Except.ok 9),
   (C8_absent_fd_ebadf emptyState 7 rfl).2.2.2.2.1 100 3 1000 1000 (Except.ok [1])
     (by decide)⟩

/-- Claim C9: with the isolation flag set, every syscall dispatch entry
point fails as a fatal unsupported error for all arguments and all host
oracles: no argument-dependent logic runs, no host call is made, and no
state (fd table or guest memory) is produced or modified. -/
theorem C9_isolation_gate (c : Consts) (st : MState) (iso : Bool) (hiso : iso = true) :
    (∀ flag pptr ho, openSyscall c iso st flag pptr ho
        = Except.error InterpErr.unsupported) ∧
    (∀ fd cmd sa cl, fcntl c iso st fd cmd sa cl = Except.error InterpErr.unsupported) ∧
    (∀ fd sres, close iso st fd sres = Except.error InterpErr.unsupported) ∧
    (∀ fd buf count tMax hMax hr, readSys iso st fd buf count tMax hMax hr
        = Except.error InterpErr.unsupported) ∧
    (∀ fd buf count tMax hMax hw, writeSys iso st fd buf count tMax hMax hw
        = Except.error InterpErr.unsupported) ∧
    (∀ fd off whence hs, lseek64 c iso st fd off whence hs
        = Except.error InterpErr.unsupported) ∧
    (∀ pptr hres, unlink iso st pptr hres = Except.error InterpErr.unsupported) ∧
    (∀ a b hres, symlink iso st a b hres = Except.error InterpErr.unsupported) ∧
    (∀ a b hres, rename iso st a b hres = Except.error InterpErr.unsupported) ∧
    (∀ plat pptr hm, macos_stat c iso plat st pptr hm
        = Except.error InterpErr.unsupported) ∧
    (∀ plat pptr hm, macos_lstat c iso plat st pptr hm
        = Except.error InterpErr.unsupported) ∧
    (∀ plat fd hm, macos_fstat c iso plat st fd hm
        = Except.error InterpErr.unsupported) ∧
    (∀ plat dirfd pptr flags rmask bptr hm,
        linux_statx c iso plat st dirfd pptr flags rmask bptr hm
          = Except.error InterpErr.unsupported) := by
  subst hiso
  refine ⟨?_, ?_, ?_, ?_, ?_, ?_, ?_, ?_, ?_, ?_, ?_, ?_, ?_⟩ <;> intros <;> rfl

/-- Witness for C9: two entry points refused under isolation. -/
theorem C9_witness :
    openSyscall linuxConsts true emptyState 0 50 (Except.ok 7)
      = Except.error InterpErr.unsupported ∧
    readSys true emptyState 3 100 3 1000 1000 (Except.ok [1])
      = Except.error InterpErr.unsupported :=
  ⟨(C9_isolation_gate linuxConsts emptyState true rfl).1 0 50 (Except.ok 7),
   (C9_isolation_gate linuxConsts emptyState true rfl).2.2.2.1 3 100 3 1000 1000
     (Except.ok [1])⟩

/-- Successful timestamp extraction preserves presence: the result is
present exactly when the host supplied the time. -/
theorem extract_isSome (o : Option Int) (r : Option (Nat × Nat))
    (h : extract_sec_and_nsec o = Except.ok r) : r.isSome = o.isSome := by
  cases o with
  | none =>
    rw [extract_sec_and_nsec] at h
    rw [Except.ok.injEq] at h
    subst h
    rfl
  | some t =>
    rw [extract_sec_and_nsec] at h
    by_cases ht : t < 0
    · rw [if_pos ht] at h
      exact absurd h (by simp)
    · rw [if_neg ht] at h
      rw [Except.ok.injEq] at h
      subst h
      rfl

/-- On a successful conversion, each normalized timestamp is present
exactly when the corresponding raw host timestamp was supplied. -/
theorem ofRaw_isSome (c : Consts) (rm : RawMeta) (md : FileMetadata)
    (h : FileMetadata.ofRaw c rm = Except.ok md) :
    md.accessed.isSome = rm.accessed.isSome ∧
    md.created.isSome = rm.created.isSome ∧
    md.modified.isSome = rm.modified.isSome := by
  rw [FileMetadata.ofRaw] at h
  cases hcr : extract_sec_and_nsec rm.created with
  | error e => rw [hcr] at h; exact absurd h (by simp)
  | ok created =>
    simp only [hcr] at h
    cases hac : extract_sec_and_nsec rm.accessed with
    | error e => rw [hac] at h; exact absurd h (by simp)
    | ok accessed =>
      simp only [hac] at h
      cases hmo : extract_sec_and_nsec rm.modified with
      | error e => rw [hmo] at h; exact absurd h (by simp)
      | ok modified =>
        simp only [hmo] at h
        rw [Except.ok.injEq] at h
        subst h
        exact ⟨extract_isSome _ _ hac, extract_isSome _ _ hcr, extract_isSome _ _ hmo⟩

/-- On the Linux target the reported mask always has the TYPE and SIZE
bits set, and has the ATIME, BTIME, MTIME bits set exactly when the
corresponding timestamp is present. -/
theorem statx_mask_bits (md : FileMetadata) :
    statx_mask linuxConsts md &&& linuxConsts.STATX_TYPE = linuxConsts.STATX_TYPE ∧
    statx_mask linuxConsts md &&& linuxConsts.STATX_SIZE = linuxConsts.STATX_SIZE ∧
    ((statx_mask linuxConsts md &&& linuxConsts.STATX_ATIME ≠ 0) ↔ md.accessed.isSome) ∧
    ((statx_mask linuxConsts md &&& linuxConsts.STATX_BTIME ≠ 0) ↔ md.created.isSome) ∧
    ((statx_mask linuxConsts md &&& linuxConsts.STATX_MTIME ≠ 0) ↔ md.modified.isSome) := by
  cases ha : md.accessed.isSome <;> cases hc : md.created.isSome <;>
    cases hm : md.modified.isSome <;>
      simp only [statx_mask, ha, hc, hm, if_true, if_false] <;> decide

/-- `from_meta` on a host success with a convertible raw value returns the
state unchanged and the converted metadata. -/
theorem from_meta_ok_inv (c : Consts) (st0 st1 : MState) (rm : RawMeta)
    (md0 md : FileMetadata) (hmd : FileMetadata.ofRaw c rm = Except.ok md)
    (h : from_meta c st0 (Except.ok rm) = Except.ok (st1, some md0)) :
    st1 = st0 ∧ md0 = md := by
  rw [from_meta] at h
  simp only [hmd] at h
  rw [Except.ok.injEq] at h
  rw [Prod.ext_iff] at h
  obtain ⟨h1, h2⟩ := h
  rw [Option.some_inj] at h2
  exact ⟨h1.symm, h2.symm⟩

/-- Claim C4: for every successful `statx` call the reported `stx_mask`
written to the guest buffer contains TYPE and SIZE, and contains ATIME,
BTIME, MTIME exactly when the corresponding timestamp was obtained from
the host; the caller's requested mask has no influence on the result; and
the unsupported fields (blksize, attributes, nlink, uid, gid, ino, blocks,
ctime, rdev/dev major and minor — positions 1, 2, 3, 4, 5, 8, 10, 11, 18,
19, 24, 25, 26, 27 of the written field list) are all written as zero. -/
theorem C4_statx_reported_mask (st : MState) (dirfd : Int) (pptr flags rmask bptr : Nat)
    (rm : RawMeta) (md : FileMetadata) (st' : MState) (imms : List Nat)
    (hmd : FileMetadata.ofRaw linuxConsts rm = Except.ok md)
    (hrun : linux_statx linuxConsts false Platform.linux st dirfd pptr flags rmask bptr
        (Except.ok rm) = Except.ok (st', 0, imms)) :
    imms = statx_imms linuxConsts md ∧
    imms.head? = some (statx_mask linuxConsts md) ∧
    (∀ rmask2, linux_statx linuxConsts false Platform.linux st dirfd pptr flags rmask2 bptr
        (Except.ok rm) = Except.ok (st', 0, imms)) ∧
    statx_mask linuxConsts md &&& linuxConsts.STATX_TYPE = linuxConsts.STATX_TYPE ∧
    statx_mask linuxConsts md &&& linuxConsts.STATX_SIZE = linuxConsts.STATX_SIZE ∧
    ((statx_mask linuxConsts md &&& linuxConsts.STATX_ATIME ≠ 0) ↔ md.accessed.isSome) ∧
    ((statx_mask linuxConsts md &&& linuxConsts.STATX_BTIME ≠ 0) ↔ md.created.isSome) ∧
    ((statx_mask linuxConsts md &&& linuxConsts.STATX_MTIME ≠ 0) ↔ md.modified.isSome) ∧
    md.accessed.isSome = rm.accessed.isSome ∧
    md.created.isSome = rm.created.isSome ∧
    md.modified.isSome = rm.modified.isSome ∧
    imms.get? 1 = some 0 ∧ imms.get? 2 = some 0 ∧ imms.get? 3 = some 0 ∧
    imms.get? 4 = some 0 ∧ imms.get? 5 = some 0 ∧ imms.get? 8 = some 0 ∧
    imms.get? 10 = some 0 ∧ imms.get? 11 = some 0 ∧ imms.get? 18 = some 0 ∧
    imms.get? 19 = some 0 ∧ imms.get? 24 = some 0 ∧ imms.get? 25 = some 0 ∧
    imms.get? 26 = some 0 ∧ imms.get? 27 = some 0 := by
  have himms : imms = statx_imms linuxConsts md := by
    rw [linux_statx] at hrun
    simp only [check_no_isolation, check_platform, Bool.false_eq_true, if_false] at hrun
    split at hrun
    · simp at hrun
    · split at hrun
      · simp at hrun
      · split at hrun
        · simp at hrun
        · split at hrun
          · simp at hrun
          · split at hrun
            · simp at hrun
            · simp at hrun
            · rename_i st1 md0 hroute
              rw [Except.ok.injEq, Prod.ext_iff] at hrun
              obtain ⟨hst, hrest⟩ := hrun
              rw [Prod.ext_iff] at hrest
              obtain ⟨hret, himms0⟩ := hrest
              split at hroute
              · rw [from_fd] at hroute
                split at hroute
                · obtain ⟨-, hmd0⟩ := from_meta_ok_inv linuxConsts _ _ rm md0 md hmd hroute
                  dsimp only at himms0
                  rw [← himms0, hmd0]
                · simp at hroute
              · rw [from_path] at hroute
                obtain ⟨-, hmd0⟩ := from_meta_ok_inv linuxConsts _ _ rm md0 md hmd hroute
                dsimp only at himms0
                rw [← himms0, hmd0]
  obtain ⟨hb1, hb2, hb3, hb4, hb5⟩ := statx_mask_bits md
  obtain ⟨hs1, hs2, hs3⟩ := ofRaw_isSome linuxConsts rm md hmd
  subst himms
  exact ⟨rfl, rfl, fun _ => hrun, hb1, hb2, hb3, hb4, hb5, hs1, hs2, hs3,
    rfl, rfl, rfl, rfl, rfl, rfl, rfl, rfl, rfl, rfl, rfl, rfl, rfl, rfl⟩

/-- Witness for C4: a concrete run with accessed and modified times but no
creation time, requested mask 7; the mask reports TYPE, SIZE, ATIME, MTIME. -/
theorem C4_witness :
    statx_imms linuxConsts wMd = statx_imms linuxConsts wMd ∧
    statx_mask linuxConsts wMd &&& linuxConsts.STATX_TYPE = linuxConsts.STATX_TYPE ∧
    ((statx_mask linuxConsts wMd &&& linuxConsts.STATX_ATIME ≠ 0) ↔ wMd.accessed.isSome) ∧
    wMd.created.isSome = wRm.created.isSome :=
  ⟨(C4_statx_reported_mask emptyState (-100) 50 0 7 60 wRm wMd wStatxState
      (statx_imms linuxConsts wMd) rfl rfl).1,
   (C4_statx_reported_mask emptyState (-100) 50 0 7 60 wRm wMd wStatxState
      (statx_imms linuxConsts wMd) rfl rfl).2.2.2.1,
   (C4_statx_reported_mask emptyState (-100) 50 0 7 60 wRm wMd wStatxState
      (statx_imms linuxConsts wMd) rfl rfl).2.2.2.2.2.1,
   (C4_statx_reported_mask emptyState (-100) 50 0 7 60 wRm wMd wStatxState
      (statx_imms linuxConsts wMd) rfl rfl).2.2.2.2.2.2.2.2.2.1⟩

end MiriFs
